import Mathlib

/-!
Verification of the ESP32-P4 JIT linker specification.

The repository's visible sources are small C fixtures (`simple.c`,
`audio_dsp.c`, `dynamic_print.c`) compiled on the fly and linked against a
running firmware image.  The linker core itself (firmware symbol table, JIT
object model, symbol resolver, relocation & loader) is described by the
specification but its implementation is not among the visible sources, so it
is modelled here directly from the specification's words.  The C fixtures are
embedded from their sources.
-/

set_option maxHeartbeats 1000000

namespace P4Jit

/-- Modelled from the spec: the kind of a symbol, `{Function, Object, Unknown}`
(the linker implementation is not among the visible sources). -/
inductive SymbolKind where
  | function
  | object
  | unknown
deriving DecidableEq, Repr

/-- Modelled from the spec: a `Symbol` is
`{ name, address, size, kind }`, immutable once loaded from an ELF image. -/
structure Symbol where
  name : String
  address : Nat
  size : Nat
  kind : SymbolKind
deriving DecidableEq, Repr

/-- Modelled from the spec: a `Section` is
`{ name, raw_bytes, permissions, alignment }`.  Bytes are modelled as natural
numbers taken modulo 256 wherever they are read. -/
structure Section where
  name : String
  raw_bytes : List Nat
  perm_read : Bool
  perm_write : Bool
  perm_exec : Bool
  alignment : Nat
deriving DecidableEq, Repr

/-- Modelled from the spec: the closed relocation vocabulary — absolute
address, PC-relative displacement, and a split-immediate high/low pair. -/
inductive RelocKind where
  | abs32
  | pcrel20
  | hi20
  | lo12
deriving DecidableEq, Repr

/-- Modelled from the spec: a `RelocationEntry` is
`{ offset, target_symbol (by name), kind, addend }`; never mutated after
parse.  The offset indexes into the object's image (the concatenation of its
sections' `raw_bytes` in section order, the layout the loader uses). -/
structure RelocationEntry where
  offset : Nat
  target_symbol : String
  kind : RelocKind
  addend : Int
deriving DecidableEq, Repr

/-- Modelled from the spec: the JIT object model — the ordered sequence of
sections, the full relocation-entry list in parse order, and the
locally-defined symbols exposed so the resolver can satisfy intra-unit
references.  Local symbol addresses are offsets into the object's image. -/
structure JitObject where
  sections : List Section
  relocations : List RelocationEntry
  locals : List Symbol
deriving DecidableEq, Repr

/-- Modelled from the spec: the firmware symbol table, a queryable
exported-symbol index built once from the base firmware image. -/
structure FirmwareSymbolTable where
  syms : List Symbol
deriving DecidableEq, Repr

/-- Modelled from the spec: `lookup(name) -> Symbol | None`, lookup by exact
name only. -/
def FirmwareSymbolTable.lookup (t : FirmwareSymbolTable) (n : String) : Option Symbol :=
  t.syms.find? (fun s => s.name == n)

/-- Modelled from the spec: the error taxonomy of §7. -/
inductive LinkError where
  | MalformedImage
  | MalformedObject
  | DuplicateSymbol (name : String)
  | UnsupportedRelocationKind
  | UnresolvedSymbol (name : String)
  | RelocationOutOfRange (entry : RelocationEntry)
  | AllocationFailure
  | StaleCache
  | NoEntryPoint
  | AmbiguousEntryPoint
deriving DecidableEq, Repr

/-- Decidable equality of `Except` results, used to evaluate the linker on
concrete instances. -/
instance {ε α : Type} [DecidableEq ε] [DecidableEq α] : DecidableEq (Except ε α) := fun a b =>
  match a, b with
  | Except.ok x, Except.ok y =>
    if h : x = y then Decidable.isTrue (by rw [h])
    else Decidable.isFalse (fun he => h (Except.ok.inj he))
  | Except.error x, Except.error y =>
    if h : x = y then Decidable.isTrue (by rw [h])
    else Decidable.isFalse (fun he => h (Except.error.inj he))
  | Except.ok _, Except.error _ => Decidable.isFalse (fun he => Except.noConfusion he)
  | Except.error _, Except.ok _ => Decidable.isFalse (fun he => Except.noConfusion he)

/-- Modelled from the spec: resolved bindings, a mapping from symbol name to
its bound address, recorded in the order the relocation entries were parsed. -/
structure ResolvedBindings where
  binds : List (String × Nat)
deriving DecidableEq, Repr

/-- Lookup in resolved bindings: first pair with the given name. -/
def ResolvedBindings.lookup (b : ResolvedBindings) (n : String) : Option Nat :=
  (b.binds.find? (fun p => p.1 == n)).map (fun p => p.2)

/-- The object's in-memory image: the concatenation of its sections'
`raw_bytes` in section order (section order determines final layout). -/
def objImage (obj : JitObject) : List Nat :=
  (obj.sections.map Section.raw_bytes).flatten

/-- Lookup of a locally-defined symbol by exact name. -/
def lookupLocal (obj : JitObject) (n : String) : Option Symbol :=
  obj.locals.find? (fun s => s.name == n)

/-- Modelled from the spec: resolution order per name — (1) locally-defined
symbol in the same JIT object, (2) firmware-exported symbol; firmware never
shadows a local definition.  `base` is the address at which the object's
image will reside, so a local symbol binds to `base + offset` while a
firmware symbol binds to its absolute exported address. -/
def resolveName (obj : JitObject) (fw : FirmwareSymbolTable) (base : Nat) (n : String) :
    Option Nat :=
  match lookupLocal obj n with
  | some s => some (base + s.address)
  | none => (fw.lookup n).map (fun s => s.address)

/-- Modelled from the spec: walk the relocation entries in parse order,
binding each target name, failing fast with `UnresolvedSymbol` on the first
name that resolves neither locally nor in firmware. -/
def resolveAux (obj : JitObject) (fw : FirmwareSymbolTable) (base : Nat) :
    List RelocationEntry → Except LinkError (List (String × Nat))
  | [] => Except.ok []
  | r :: rs =>
    match resolveName obj fw base r.target_symbol with
    | none => Except.error (LinkError.UnresolvedSymbol r.target_symbol)
    | some a => (resolveAux obj fw base rs).map (fun l => (r.target_symbol, a) :: l)

/-- Modelled from the spec:
`resolve(jit_object, firmware_table) -> ResolvedBindings | UnresolvedSymbol(name)`. -/
def resolve (obj : JitObject) (fw : FirmwareSymbolTable) (base : Nat) :
    Except LinkError ResolvedBindings :=
  (resolveAux obj fw base obj.relocations).map ResolvedBindings.mk

/-- Byte read with the byte invariant applied (bytes live modulo 256). -/
def byteAt (bs : List Nat) (i : Nat) : Nat := bs.getD i 0 % 256

/-- Little-endian read of a 32-bit instruction word at offset `i`. -/
def readWord32 (bs : List Nat) (i : Nat) : Nat :=
  byteAt bs i + byteAt bs (i + 1) * 256 + byteAt bs (i + 2) * 65536 +
    byteAt bs (i + 3) * 16777216

/-- Little-endian write of a 32-bit instruction word at offset `i`. -/
def writeWord32 (bs : List Nat) (i : Nat) (w : Nat) : List Nat :=
  (((bs.set i (w % 256)).set (i + 1) (w / 256 % 256)).set (i + 2)
      (w / 65536 % 256)).set (i + 3) (w / 16777216 % 256)

/-- Bit position of the immediate field for each relocation kind. -/
def shiftOf : RelocKind → Nat
  | RelocKind.abs32 => 0
  | RelocKind.pcrel20 => 12
  | RelocKind.hi20 => 12
  | RelocKind.lo12 => 20

/-- Width in bits of the immediate field for each relocation kind. -/
def widthOf : RelocKind → Nat
  | RelocKind.abs32 => 32
  | RelocKind.pcrel20 => 20
  | RelocKind.hi20 => 20
  | RelocKind.lo12 => 12

/-- Modelled from the spec: the value to encode for a relocation entry given
the bindings — `resolved_address(target_symbol) + addend`, as a PC-relative
displacement for the PC-relative kind (PC is `base + offset`). -/
def computeValue (b : ResolvedBindings) (base : Nat) (r : RelocationEntry) : Option Int :=
  (b.lookup r.target_symbol).map (fun addr =>
    match r.kind with
    | RelocKind.pcrel20 => (addr : Int) + r.addend - ((base : Int) + (r.offset : Int))
    | _ => (addr : Int) + r.addend)

/-- Modelled from the spec: whether the computed value fits the instruction's
immediate-field width for the kind — a 32-bit unsigned range for the absolute
and split high/low kinds, a 20-bit signed range for the PC-relative kind. -/
def fitsKind : RelocKind → Int → Bool
  | RelocKind.abs32, v => decide (0 ≤ v) && decide (v < 4294967296)
  | RelocKind.pcrel20, v => decide (-524288 ≤ v) && decide (v < 524288)
  | RelocKind.hi20, v => decide (0 ≤ v) && decide (v < 4294967296)
  | RelocKind.lo12, v => decide (0 ≤ v) && decide (v < 4294967296)

/-- The masked/shifted bit pattern stored in the immediate field: the full
32-bit value for `abs32`, the 20-bit two's-complement displacement for
`pcrel20`, bits 12..31 of the value for `hi20`, bits 0..11 for `lo12`. -/
def encodeField (k : RelocKind) (v : Int) : Nat :=
  match k with
  | RelocKind.abs32 => v.toNat % 4294967296
  | RelocKind.pcrel20 => (v % 1048576).toNat
  | RelocKind.hi20 => v.toNat / 4096 % 1048576
  | RelocKind.lo12 => v.toNat % 4096

/-- Insert a `w`-bit field at bit position `s` of a word, preserving the
bits outside the field. -/
def insertField (s w word field : Nat) : Nat :=
  word % 2 ^ s + field % 2 ^ w * 2 ^ s + word / 2 ^ (s + w) * 2 ^ (s + w)

/-- Extract the `w`-bit field at bit position `s` of a word. -/
def extractField (s w word : Nat) : Nat := word / 2 ^ s % 2 ^ w

/-- Sign extension of a `w`-bit two's-complement pattern. -/
def signExt (w n : Nat) : Int :=
  if n < 2 ^ (w - 1) then (n : Int) else (n : Int) - 2 ^ w

/-- Independent re-decoding of the relocation-affected operand from a patched
instruction word: extract the field and undo the two's-complement encoding
for the signed PC-relative kind. -/
def decodeOperand (k : RelocKind) (word : Nat) : Int :=
  match k with
  | RelocKind.pcrel20 => signExt 20 (extractField 12 20 word)
  | k => (extractField (shiftOf k) (widthOf k) word : Int)

/-- The operand the round-trip property expects:
`resolved_address(target) + addend` after applying the mask/shift prescribed
by the relocation kind (the full value for the absolute and PC-relative
kinds, the high respectively low bits for the split pair). -/
def expectedOperand (k : RelocKind) (v : Int) : Int :=
  match k with
  | RelocKind.abs32 => v
  | RelocKind.pcrel20 => v
  | RelocKind.hi20 => ((v.toNat / 4096 % 1048576 : Nat) : Int)
  | RelocKind.lo12 => ((v.toNat % 4096 : Nat) : Int)

/-- Modelled from the spec: validation of one relocation entry before any
byte is written — the offset must lie inside the image, the target must be
bound, and the encoded value must fit the field ( `RelocationOutOfRange`
otherwise, never silent truncation). -/
def validateEntry (b : ResolvedBindings) (base len : Nat) (r : RelocationEntry) :
    Except LinkError Unit :=
  if r.offset + 4 ≤ len then
    match computeValue b base r with
    | none => Except.error (LinkError.UnresolvedSymbol r.target_symbol)
    | some v =>
      if fitsKind r.kind v then Except.ok ()
      else Except.error (LinkError.RelocationOutOfRange r)
  else Except.error LinkError.MalformedObject

/-- Modelled from the spec: validate every relocation entry, in parse order,
before any byte is written. -/
def validateAll (b : ResolvedBindings) (base len : Nat) :
    List RelocationEntry → Except LinkError Unit
  | [] => Except.ok ()
  | r :: rs =>
    match validateEntry b base len r with
    | Except.error e => Except.error e
    | Except.ok _ => validateAll b base len rs

/-- Apply one (already validated) relocation: read the instruction word,
insert the encoded field, write the word back. -/
def applyReloc (b : ResolvedBindings) (base : Nat) (bytes : List Nat)
    (r : RelocationEntry) : List Nat :=
  match computeValue b base r with
  | none => bytes
  | some v =>
    writeWord32 bytes r.offset
      (insertField (shiftOf r.kind) (widthOf r.kind) (readWord32 bytes r.offset)
        (encodeField r.kind v))

/-- Apply all relocations in parse order. -/
def applyAll (b : ResolvedBindings) (base : Nat) (rs : List RelocationEntry)
    (bytes : List Nat) : List Nat :=
  rs.foldl (applyReloc b base) bytes

/-- Modelled from the spec:
`patch(jit_object, bindings) -> PatchedImage | RelocationOutOfRange(entry)`.
All entries are validated before any byte is written, so a failure leaves
every byte of the image unchanged. -/
def patch (obj : JitObject) (b : ResolvedBindings) (base : Nat) :
    Except LinkError (List Nat) :=
  match validateAll b base (objImage obj).length obj.relocations with
  | Except.error e => Except.error e
  | Except.ok _ => Except.ok (applyAll b base obj.relocations (objImage obj))

/-- Modelled from the spec: entry-symbol selection — exactly one
locally-defined symbol matching the caller-supplied entry name is required;
zero candidates is `NoEntryPoint`, more than one is `AmbiguousEntryPoint`,
and otherwise the entry point is that symbol's address within the loaded
region. -/
def selectEntry (locals : List Symbol) (entry : String) (base : Nat) :
    Except LinkError Nat :=
  match locals.filter (fun s => s.name == entry) with
  | [] => Except.error LinkError.NoEntryPoint
  | [s] => Except.ok (base + s.address)
  | _ :: _ :: _ => Except.error LinkError.AmbiguousEntryPoint

/-- Modelled from the spec: the `LinkedModule` output —
`{ entry_point_address, code_region, resolved_symbols, size }`. -/
structure LinkedModule where
  entry_point_address : Nat
  code_region : List Nat
  resolved_symbols : List (String × Nat)
  size : Nat
deriving DecidableEq, Repr

/-- The observable outcome of one link operation: the result, together with
the state of the object's image bytes after the operation (equal to the
original image whenever no byte was written). -/
structure LinkOutcome where
  result : Except LinkError LinkedModule
  image : List Nat
deriving Repr

/-- Modelled from the spec: the full link pipeline
`Parsed → Resolved → Patched → Loaded`; each stage runs only if the previous
one fully succeeded, and any failure aborts the operation cleanly with no
partially patched module ever returned. -/
def link (obj : JitObject) (fw : FirmwareSymbolTable) (base : Nat) (entry : String) :
    LinkOutcome :=
  match resolve obj fw base with
  | Except.error e => LinkOutcome.mk (Except.error e) (objImage obj)
  | Except.ok b =>
    match patch obj b base with
    | Except.error e => LinkOutcome.mk (Except.error e) (objImage obj)
    | Except.ok img =>
      match selectEntry obj.locals entry base with
      | Except.error e => LinkOutcome.mk (Except.error e) img
      | Except.ok ep =>
        LinkOutcome.mk
          (Except.ok (LinkedModule.mk ep img b.binds img.length)) img

/-- Modelled from the spec: the process-wide linker state — the only global
state is the optionally cached firmware symbol table, read-only for the
lifetime of a link operation. -/
structure LinkerState where
  firmware : FirmwareSymbolTable
deriving DecidableEq, Repr

/-- Modelled from the spec: a link operation against the global state, with
the state threaded explicitly; the firmware table is only read. -/
def linkSt (st : LinkerState) (obj : JitObject) (base : Nat) (entry : String) :
    LinkOutcome × LinkerState :=
  (link obj st.firmware base entry, st)

/-- The first relocation entry, in parse order, whose target name resolves
neither locally nor in firmware. -/
def firstUnresolved (obj : JitObject) (fw : FirmwareSymbolTable) (base : Nat) :
    Option RelocationEntry :=
  obj.relocations.find? (fun r => (resolveName obj fw base r.target_symbol).isNone)

end P4Jit

namespace SimpleC

/-- The 32-bit wrap-around modulus of the C `int32_t`/`uint32_t` types used
by `simple.c`. -/
def M32 : Nat := 4294967296

/-- The mutable state of `simple.c`: the file-scope `static uint32_t
counter`, stored as its 32-bit pattern. -/
structure SimpleState where
  counter : Nat
deriving DecidableEq, Repr

/-- `compute` from `simple.c`: `counter++; return (a + b) * counter;` with
all `int32_t`/`uint32_t` values modelled as 32-bit patterns under wrap-around
arithmetic.  Returns the result together with the updated state. -/
def compute (s : SimpleState) (a b : Nat) : Nat × SimpleState :=
  let c := (s.counter + 1) % M32
  let sum := (a + b) % M32
  (sum * c % M32, SimpleState.mk c)

/-- `get_counter` from `simple.c`: `return counter;` — no state change. -/
def get_counter (s : SimpleState) : Nat × SimpleState :=
  (s.counter, s)

end SimpleC

namespace DynamicPrintC

/-- The observable effects of one run of `test_dynamic`: its return value and
the addresses passed to `free`, in call order. -/
structure DynOutcome where
  ret : Int
  freed : List Nat
deriving DecidableEq, Repr

/-- `test_dynamic` from `dynamic_print.c`, parameterised by the result of the
single `malloc(64)` call (`none` models a NULL return).  The `printf` and
`snprintf` calls go to firmware-resident stdio and do not affect the
abstracted state; on NULL the function returns `-1` without freeing, and
otherwise it writes the buffer, frees it once, and returns `42`. -/
def test_dynamic (mallocResult : Option Nat) : DynOutcome :=
  match mallocResult with
  | none => DynOutcome.mk (-1) []
  | some buffer => DynOutcome.mk 42 [buffer]

end DynamicPrintC

namespace P4Jit

/-- A small firmware symbol table for the concrete instances: `malloc`,
`free`, `printf` as exported by the base firmware, plus a firmware export
named `compute` that collides with the local `compute` of `simple.c`. -/
def fwExample : FirmwareSymbolTable := FirmwareSymbolTable.mk
  [Symbol.mk "malloc" 65536 16 SymbolKind.function,
   Symbol.mk "free" 65600 16 SymbolKind.function,
   Symbol.mk "printf" 131072 32 SymbolKind.function,
   Symbol.mk "compute" 212992 16 SymbolKind.function]

/-- The `simple.c` unit as a JIT object: locals `compute`, `get_counter`,
`call`, with `call` referencing its sibling `compute` PC-relatively. -/
def simpleObj : JitObject := JitObject.mk
  [Section.mk ".text" (List.replicate 24 19) true false true 4]
  [RelocationEntry.mk 16 "compute" RelocKind.pcrel20 0]
  [Symbol.mk "compute" 0 8 SymbolKind.function,
   Symbol.mk "get_counter" 8 4 SymbolKind.function,
   Symbol.mk "call" 16 8 SymbolKind.function]

/-- The `audio_dsp.c` unit as a JIT object: `process_audio` calls the
firmware `printf` and the external assembly kernel `vector_scale_asm`. -/
def audioObj : JitObject := JitObject.mk
  [Section.mk ".text" (List.replicate 16 19) true false true 4]
  [RelocationEntry.mk 0 "printf" RelocKind.abs32 0,
   RelocationEntry.mk 4 "vector_scale_asm" RelocKind.pcrel20 0]
  [Symbol.mk "process_audio" 0 16 SymbolKind.function]

/-- An object whose single PC-relative relocation targets the far-away
firmware `malloc`, overflowing the 20-bit signed displacement field. -/
def rangeObj : JitObject := JitObject.mk
  [Section.mk ".text" (List.replicate 8 19) true false true 4]
  [RelocationEntry.mk 4 "malloc" RelocKind.pcrel20 0]
  [Symbol.mk "f" 0 4 SymbolKind.function]

/-- A linkable object exercising all four relocation kinds at pairwise
disjoint instruction words, with local entry `process`. -/
def demoObj : JitObject := JitObject.mk
  [Section.mk ".text" [19, 0, 0, 0, 151, 0, 0, 0, 19, 5, 69, 2, 55, 5, 0, 0]
    true false true 4]
  [RelocationEntry.mk 0 "malloc" RelocKind.abs32 0,
   RelocationEntry.mk 4 "process" RelocKind.pcrel20 0,
   RelocationEntry.mk 8 "free" RelocKind.lo12 4,
   RelocationEntry.mk 12 "printf" RelocKind.hi20 0]
  [Symbol.mk "process" 8 4 SymbolKind.function]

/-- The bindings `resolve` produces for `demoObj` against `fwExample` at
base address `0x40000000`. -/
def demoBindings : ResolvedBindings := ResolvedBindings.mk
  [("malloc", 65536), ("process", 1073741832), ("free", 65600), ("printf", 131072)]

/-- The patched image of `demoObj` under `demoBindings`. -/
def demoImage : List Nat :=
  applyAll demoBindings 1073741824 demoObj.relocations (objImage demoObj)

/-- The linked module `link` returns for `demoObj` with entry `process`. -/
def demoModule : LinkedModule :=
  LinkedModule.mk 1073741832 demoImage demoBindings.binds demoImage.length

/-- The bindings `resolve` produces for `rangeObj` against `fwExample`. -/
def rangeBindings : ResolvedBindings := ResolvedBindings.mk [("malloc", 65536)]

end P4Jit

namespace P4Jit

lemma resolveAux_fail_fast (obj : JitObject) (fw : FirmwareSymbolTable) (base : Nat) :
    ∀ rs : List RelocationEntry, ∀ r₀ : RelocationEntry,
      rs.find? (fun r => (resolveName obj fw base r.target_symbol).isNone) = some r₀ →
      resolveAux obj fw base rs =
        Except.error (LinkError.UnresolvedSymbol r₀.target_symbol) := by
  intro rs
  induction rs with
  | nil => intro r₀ h; simp [List.find?] at h
  | cons r rest ih =>
    intro r₀ h
    unfold resolveAux
    cases hr : resolveName obj fw base r.target_symbol with
    | none =>
      rw [List.find?_cons, hr] at h
      simp only [Option.isNone_none] at h
      cases h
      rfl
    | some a =>
      rw [List.find?_cons, hr] at h
      simp only [Option.isNone_some] at h
      rw [ih r₀ h]
      rfl

lemma resolve_fail_first (obj : JitObject) (fw : FirmwareSymbolTable) (base : Nat)
    (r₀ : RelocationEntry) (h : firstUnresolved obj fw base = some r₀) :
    resolve obj fw base = Except.error (LinkError.UnresolvedSymbol r₀.target_symbol) := by
  unfold resolve
  rw [resolveAux_fail_fast obj fw base obj.relocations r₀ h]
  rfl

lemma validateAll_ok (b : ResolvedBindings) (base len : Nat) :
    ∀ rs : List RelocationEntry, validateAll b base len rs = Except.ok () →
      ∀ r ∈ rs, r.offset + 4 ≤ len ∧
        ∃ v, computeValue b base r = some v ∧ fitsKind r.kind v = true := by
  intro rs
  induction rs with
  | nil => intro _ r hr; simp at hr
  | cons r rest ih =>
    intro h r' hr'
    unfold validateAll at h
    cases hve : validateEntry b base len r with
    | error e => rw [hve] at h; exact absurd h (by simp)
    | ok u =>
      rw [hve] at h
      rcases List.mem_cons.mp hr' with rfl | hmem
      · unfold validateEntry at hve
        by_cases hoff : r'.offset + 4 ≤ len
        · cases hcv : computeValue b base r' with
          | none => simp [if_pos hoff, hcv] at hve
          | some v =>
            by_cases hfit : fitsKind r'.kind v = true
            · exact ⟨hoff, v, rfl, hfit⟩
            · simp [if_pos hoff, hcv, hfit] at hve
        · simp [if_neg hoff] at hve
      · exact ih h r' hmem

lemma validateAll_bad (b : ResolvedBindings) (base len : Nat) :
    ∀ rs : List RelocationEntry,
      (∀ r ∈ rs, r.offset + 4 ≤ len ∧ (computeValue b base r).isSome = true) →
      ∀ r₀ ∈ rs, ∀ v₀, computeValue b base r₀ = some v₀ → fitsKind r₀.kind v₀ = false →
      ∃ r₁ v₁, r₁ ∈ rs ∧ computeValue b base r₁ = some v₁ ∧
        fitsKind r₁.kind v₁ = false ∧
        validateAll b base len rs = Except.error (LinkError.RelocationOutOfRange r₁) := by
  intro rs
  induction rs with
  | nil => intro _ r₀ h; simp at h
  | cons r rest ih =>
    intro hwf r₀ hr₀ v₀ hv₀ hbad₀
    obtain ⟨hoff, hsome⟩ := hwf r (List.mem_cons_self r rest)
    obtain ⟨v, hv⟩ := Option.isSome_iff_exists.mp hsome
    by_cases hfit : fitsKind r.kind v = true
    · have hne : r₀ ∈ rest := by
        rcases List.mem_cons.mp hr₀ with rfl | hmem
        · rw [hv₀] at hv; cases hv; rw [hbad₀] at hfit; cases hfit
        · exact hmem
      obtain ⟨r₁, v₁, hmem₁, hv₁, hbad₁, hval₁⟩ :=
        ih (fun r' hr' => hwf r' (List.mem_cons_of_mem r hr')) r₀ hne v₀ hv₀ hbad₀
      refine ⟨r₁, v₁, List.mem_cons_of_mem r hmem₁, hv₁, hbad₁, ?_⟩
      unfold validateAll validateEntry
      simp only [if_pos hoff, hv, hfit, if_true]
      exact hval₁
    · refine ⟨r, v, List.mem_cons_self r rest, hv, by simpa using hfit, ?_⟩
      unfold validateAll validateEntry
      simp [if_pos hoff, hv, hfit]

/-- C3: when a name is defined locally in the JIT object, resolution binds it
to the local definition's address for every firmware table — the firmware
export never shadows it and is never consulted for that name. -/
theorem resolve_local_precedence (obj : JitObject) (base : Nat) (n : String) (s : Symbol)
    (h : lookupLocal obj n = some s) :
    ∀ fw : FirmwareSymbolTable, resolveName obj fw base n = some (base + s.address) := by
  intro fw
  unfold resolveName
  rw [h]

/-- Witness for C3: in the `simple.c` object, `compute` is defined locally,
so it binds to the local address even though `fwExample` also exports a
symbol named `compute`. -/
theorem resolve_local_precedence_witness :
    resolveName simpleObj fwExample 1073741824 "compute" = some 1073741824 :=
  resolve_local_precedence simpleObj 1073741824 "compute"
    (Symbol.mk "compute" 0 8 SymbolKind.function) (by decide) fwExample

/-- C5: resolution fails fast on the first relocation entry, in parse order,
whose target name resolves neither locally nor in firmware, and the error
carries exactly that name. -/
theorem resolve_fail_fast (obj : JitObject) (fw : FirmwareSymbolTable) (base : Nat)
    (r₀ : RelocationEntry) (h : firstUnresolved obj fw base = some r₀) :
    resolve obj fw base = Except.error (LinkError.UnresolvedSymbol r₀.target_symbol) :=
  resolve_fail_first obj fw base r₀ h

/-- Witness for C5: the `audio_dsp.c` object references `vector_scale_asm`,
absent from both the local symbols and the firmware table, so resolution
fails with exactly `UnresolvedSymbol("vector_scale_asm")`. -/
theorem resolve_fail_fast_witness :
    resolve audioObj fwExample 1073741824 =
      Except.error (LinkError.UnresolvedSymbol "vector_scale_asm") :=
  resolve_fail_fast audioObj fwExample 1073741824
    (RelocationEntry.mk 4 "vector_scale_asm" RelocKind.pcrel20 0) (by decide)

/-- C7: resolution is idempotent and deterministic — two runs of `resolve` on
the same JIT object and firmware table yield identical ResolvedBindings. -/
theorem resolve_idempotent (obj : JitObject) (fw : FirmwareSymbolTable) (base : Nat)
    (b₁ b₂ : ResolvedBindings) (h₁ : resolve obj fw base = Except.ok b₁)
    (h₂ : resolve obj fw base = Except.ok b₂) : b₁ = b₂ := by
  rw [h₁] at h₂
  exact Except.ok.inj h₂

/-- Witness for C7: two runs of `resolve` on `demoObj` both return
`demoBindings`. -/
theorem resolve_idempotent_witness : demoBindings = demoBindings :=
  resolve_idempotent demoObj fwExample 1073741824 demoBindings demoBindings
    (by decide) (by decide)

/-- C1: an object with at least one relocation whose target resolves neither
locally nor in firmware fails at resolution — before patching begins — with
`UnresolvedSymbol`, and no byte of any section's `raw_bytes` is mutated. -/
theorem link_all_or_nothing (obj : JitObject) (fw : FirmwareSymbolTable) (base : Nat)
    (entry : String)
    (h : ∃ r ∈ obj.relocations, resolveName obj fw base r.target_symbol = none) :
    (link obj fw base entry).image = objImage obj ∧
    ∃ n, resolve obj fw base = Except.error (LinkError.UnresolvedSymbol n) ∧
      (link obj fw base entry).result = Except.error (LinkError.UnresolvedSymbol n) := by
  have hfind : (firstUnresolved obj fw base).isSome = true := by
    unfold firstUnresolved
    rw [List.find?_isSome]
    obtain ⟨r, hr, hnone⟩ := h
    exact ⟨r, hr, by simp [hnone]⟩
  obtain ⟨r₀, hr₀⟩ := Option.isSome_iff_exists.mp hfind
  have hres := resolve_fail_first obj fw base r₀ hr₀
  refine ⟨?_, r₀.target_symbol, hres, ?_⟩ <;> simp only [link, hres]

/-- Witness for C1: linking `audio_dsp.c` against `fwExample` (which lacks
`vector_scale_asm`) fails at resolution and leaves the image untouched. -/
theorem link_all_or_nothing_witness :
    (link audioObj fwExample 1073741824 "process_audio").image = objImage audioObj ∧
    ∃ n, resolve audioObj fwExample 1073741824 =
        Except.error (LinkError.UnresolvedSymbol n) ∧
      (link audioObj fwExample 1073741824 "process_audio").result =
        Except.error (LinkError.UnresolvedSymbol n) :=
  link_all_or_nothing audioObj fwExample 1073741824 "process_audio" (by decide)

/-- C8: the firmware symbol table is read-only for a link operation — the
linker state after any link operation carries the same firmware table, and a
subsequent link attempt from the resulting state behaves exactly as a link
from the original state. -/
theorem firmware_table_read_only (st : LinkerState) (obj : JitObject) (base : Nat)
    (entry : String) (obj₂ : JitObject) (base₂ : Nat) (entry₂ : String) :
    (linkSt st obj base entry).2.firmware = st.firmware ∧
    linkSt (linkSt st obj base entry).2 obj₂ base₂ entry₂ = linkSt st obj₂ base₂ entry₂ :=
  ⟨rfl, rfl⟩

/-- C2: when the bindings resolve but some relocation entry's computed value
does not fit its immediate field, `patch` fails with `RelocationOutOfRange`
carrying an offending entry, and the section bytes are unchanged from the
unpatched object — never silently truncated. -/
theorem patch_range_safety (obj : JitObject) (fw : FirmwareSymbolTable) (base : Nat)
    (entry : String) (b : ResolvedBindings)
    (hres : resolve obj fw base = Except.ok b)
    (hwf : ∀ r ∈ obj.relocations, r.offset + 4 ≤ (objImage obj).length ∧
      (computeValue b base r).isSome = true)
    (r₀ : RelocationEntry) (hmem : r₀ ∈ obj.relocations) (v₀ : Int)
    (hv₀ : computeValue b base r₀ = some v₀) (hbad : fitsKind r₀.kind v₀ = false) :
    ∃ r₁ v₁, r₁ ∈ obj.relocations ∧ computeValue b base r₁ = some v₁ ∧
      fitsKind r₁.kind v₁ = false ∧
      patch obj b base = Except.error (LinkError.RelocationOutOfRange r₁) ∧
      (link obj fw base entry).result = Except.error (LinkError.RelocationOutOfRange r₁) ∧
      (link obj fw base entry).image = objImage obj := by
  obtain ⟨r₁, v₁, hmem₁, hv₁, hbad₁, hval⟩ :=
    validateAll_bad b base (objImage obj).length obj.relocations hwf r₀ hmem v₀ hv₀ hbad
  have hpatch : patch obj b base = Except.error (LinkError.RelocationOutOfRange r₁) := by
    unfold patch
    rw [hval]
  refine ⟨r₁, v₁, hmem₁, hv₁, hbad₁, hpatch, ?_, ?_⟩ <;> simp only [link, hres, hpatch]

/-- Witness for C2: `rangeObj`'s PC-relative reference to the firmware
`malloc` computes a displacement far outside the 20-bit signed field, so
`patch` fails with `RelocationOutOfRange` and the image is unchanged. -/
theorem patch_range_safety_witness :
    ∃ r₁ v₁, r₁ ∈ rangeObj.relocations ∧
      computeValue rangeBindings 1073741824 r₁ = some v₁ ∧
      fitsKind r₁.kind v₁ = false ∧
      patch rangeObj rangeBindings 1073741824 =
        Except.error (LinkError.RelocationOutOfRange r₁) ∧
      (link rangeObj fwExample 1073741824 "f").result =
        Except.error (LinkError.RelocationOutOfRange r₁) ∧
      (link rangeObj fwExample 1073741824 "f").image = objImage rangeObj :=
  patch_range_safety rangeObj fwExample 1073741824 "f" rangeBindings (by decide)
    (by decide) (RelocationEntry.mk 4 "malloc" RelocKind.pcrel20 0) (by decide)
    (-1073676292) (by decide) (by decide)

/-- C6: under a successful resolve and patch, entry selection requires
exactly one matching local symbol: zero candidates fails with `NoEntryPoint`,
two or more with `AmbiguousEntryPoint`, and exactly one yields a module whose
entry point is that symbol's address within the loaded region. -/
theorem link_entry_selection (obj : JitObject) (fw : FirmwareSymbolTable) (base : Nat)
    (entry : String) (b : ResolvedBindings) (img : List Nat)
    (hres : resolve obj fw base = Except.ok b)
    (hpatch : patch obj b base = Except.ok img) :
    (obj.locals.filter (fun s => s.name == entry) = [] →
      (link obj fw base entry).result = Except.error LinkError.NoEntryPoint) ∧
    (∀ s₁ s₂ tl, obj.locals.filter (fun s => s.name == entry) = s₁ :: s₂ :: tl →
      (link obj fw base entry).result = Except.error LinkError.AmbiguousEntryPoint) ∧
    (∀ s, obj.locals.filter (fun s => s.name == entry) = [s] →
      (link obj fw base entry).result =
        Except.ok (LinkedModule.mk (base + s.address) img b.binds img.length)) := by
  refine ⟨?_, ?_, ?_⟩
  · intro h
    simp only [link, hres, hpatch, selectEntry, h]
  · intro s₁ s₂ tl h
    simp only [link, hres, hpatch, selectEntry, h]
  · intro s h
    simp only [link, hres, hpatch, selectEntry, h]

/-- Witness for C6: linking `demoObj` with entry name `process` selects the
unique local `process` symbol and reports its loaded address as the entry
point. -/
theorem link_entry_selection_witness :
    (link demoObj fwExample 1073741824 "process").result =
      Except.ok (LinkedModule.mk (1073741824 + 8) demoImage demoBindings.binds
        demoImage.length) :=
  (link_entry_selection demoObj fwExample 1073741824 "process" demoBindings demoImage
      (by decide) (by decide)).2.2 (Symbol.mk "process" 8 4 SymbolKind.function) (by decide)

end P4Jit

/-- C9: in the `simple.c` fixture, `compute(a, b)` increments the counter
from `c` to `c + 1` and returns `(a + b) * (c + 1)`, all under 32-bit
wrap-around arithmetic, and `get_counter()` returns the counter unchanged. -/
theorem SimpleC.compute_get_counter_spec (a b c : Nat) (s : SimpleC.SimpleState) :
    (SimpleC.compute (SimpleC.SimpleState.mk c) a b).2.counter = (c + 1) % SimpleC.M32 ∧
    (SimpleC.compute (SimpleC.SimpleState.mk c) a b).1 =
      (a + b) * ((c + 1) % SimpleC.M32) % SimpleC.M32 ∧
    SimpleC.get_counter s = (s.counter, s) := by
  refine ⟨rfl, ?_, rfl⟩
  show (a + b) % SimpleC.M32 * ((c + 1) % SimpleC.M32) % SimpleC.M32 = _
  exact Nat.mod_mul_mod

/-- C10: `test_dynamic()` returns `-1` exactly when `malloc(64)` returned
NULL (freeing nothing), otherwise frees the allocated buffer exactly once and
returns `42`; no other return value is possible. -/
theorem DynamicPrintC.test_dynamic_spec (alloc : Option Nat) :
    ((DynamicPrintC.test_dynamic alloc).ret = -1 ↔ alloc = none) ∧
    (alloc = none → (DynamicPrintC.test_dynamic alloc).freed = []) ∧
    (∀ p, alloc = some p → (DynamicPrintC.test_dynamic alloc).ret = 42 ∧
      (DynamicPrintC.test_dynamic alloc).freed = [p]) ∧
    ((DynamicPrintC.test_dynamic alloc).ret = -1 ∨
      (DynamicPrintC.test_dynamic alloc).ret = 42) := by
  cases alloc <;> simp [DynamicPrintC.test_dynamic]

namespace P4Jit

lemma getD_set_ne (l : List Nat) (m n a : Nat) (h : m ≠ n) :
    (l.set m a).getD n 0 = l.getD n 0 := by
  rw [List.getD_eq_getElem?_getD, List.getElem?_set_ne h, ← List.getD_eq_getElem?_getD]

lemma getD_set_self (l : List Nat) (m a : Nat) (h : m < l.length) :
    (l.set m a).getD m 0 = a := by
  rw [List.getD_eq_getElem?_getD, List.getElem?_set_eq_of_lt a h]
  rfl

lemma writeWord32_length (bs : List Nat) (i w : Nat) :
    (writeWord32 bs i w).length = bs.length := by
  simp [writeWord32]

lemma getD_write_outside (bs : List Nat) (j w n : Nat)
    (h0 : j ≠ n) (h1 : j + 1 ≠ n) (h2 : j + 2 ≠ n) (h3 : j + 3 ≠ n) :
    (writeWord32 bs j w).getD n 0 = bs.getD n 0 := by
  unfold writeWord32
  rw [getD_set_ne _ _ _ _ h3, getD_set_ne _ _ _ _ h2, getD_set_ne _ _ _ _ h1,
    getD_set_ne _ _ _ _ h0]

lemma readWord32_write_other (bs : List Nat) (i j w : Nat)
    (h : i + 4 ≤ j ∨ j + 4 ≤ i) :
    readWord32 (writeWord32 bs j w) i = readWord32 bs i := by
  unfold readWord32 byteAt
  rw [getD_write_outside bs j w i (by omega) (by omega) (by omega) (by omega),
    getD_write_outside bs j w (i + 1) (by omega) (by omega) (by omega) (by omega),
    getD_write_outside bs j w (i + 2) (by omega) (by omega) (by omega) (by omega),
    getD_write_outside bs j w (i + 3) (by omega) (by omega) (by omega) (by omega)]

lemma getD_write_at0 (bs : List Nat) (i w : Nat) (h : i < bs.length) :
    (writeWord32 bs i w).getD i 0 = w % 256 := by
  unfold writeWord32
  rw [getD_set_ne _ _ _ _ (by omega), getD_set_ne _ _ _ _ (by omega),
    getD_set_ne _ _ _ _ (by omega)]
  exact getD_set_self _ _ _ h

lemma getD_write_at1 (bs : List Nat) (i w : Nat) (h : i + 1 < bs.length) :
    (writeWord32 bs i w).getD (i + 1) 0 = w / 256 % 256 := by
  unfold writeWord32
  rw [getD_set_ne _ _ _ _ (by omega), getD_set_ne _ _ _ _ (by omega)]
  exact getD_set_self _ _ _ (by simpa using h)

lemma getD_write_at2 (bs : List Nat) (i w : Nat) (h : i + 2 < bs.length) :
    (writeWord32 bs i w).getD (i + 2) 0 = w / 65536 % 256 := by
  unfold writeWord32
  rw [getD_set_ne _ _ _ _ (by omega)]
  exact getD_set_self _ _ _ (by simpa using h)

lemma getD_write_at3 (bs : List Nat) (i w : Nat) (h : i + 3 < bs.length) :
    (writeWord32 bs i w).getD (i + 3) 0 = w / 16777216 % 256 := by
  unfold writeWord32
  exact getD_set_self _ _ _ (by simpa using h)

lemma readWord32_write_same (bs : List Nat) (i w : Nat) (h : i + 4 ≤ bs.length) :
    readWord32 (writeWord32 bs i w) i = w % 4294967296 := by
  unfold readWord32 byteAt
  rw [getD_write_at0 bs i w (by omega), getD_write_at1 bs i w (by omega),
    getD_write_at2 bs i w (by omega), getD_write_at3 bs i w (by omega)]
  omega

lemma applyReloc_length (b : ResolvedBindings) (base : Nat) (bytes : List Nat)
    (r : RelocationEntry) : (applyReloc b base bytes r).length = bytes.length := by
  unfold applyReloc
  cases computeValue b base r with
  | none => rfl
  | some v => exact writeWord32_length _ _ _

lemma applyAll_length (b : ResolvedBindings) (base : Nat) :
    ∀ (rs : List RelocationEntry) (bytes : List Nat),
      (applyAll b base rs bytes).length = bytes.length := by
  intro rs
  induction rs with
  | nil => intro bytes; rfl
  | cons r rest ih =>
    intro bytes
    show (applyAll b base rest (applyReloc b base bytes r)).length = _
    rw [ih, applyReloc_length]

lemma applyReloc_read_other (b : ResolvedBindings) (base : Nat) (bytes : List Nat)
    (r : RelocationEntry) (i : Nat) (h : r.offset + 4 ≤ i ∨ i + 4 ≤ r.offset) :
    readWord32 (applyReloc b base bytes r) i = readWord32 bytes i := by
  unfold applyReloc
  cases computeValue b base r with
  | none => rfl
  | some v => exact readWord32_write_other bytes i r.offset _ h.symm

lemma applyAll_read_other (b : ResolvedBindings) (base : Nat) :
    ∀ (rs : List RelocationEntry) (bytes : List Nat) (i : Nat),
      (∀ r' ∈ rs, r'.offset + 4 ≤ i ∨ i + 4 ≤ r'.offset) →
      readWord32 (applyAll b base rs bytes) i = readWord32 bytes i := by
  intro rs
  induction rs with
  | nil => intro bytes i _; rfl
  | cons r rest ih =>
    intro bytes i h
    show readWord32 (applyAll b base rest (applyReloc b base bytes r)) i = _
    rw [ih (applyReloc b base bytes r) i (fun r' hr' => h r' (List.mem_cons_of_mem r hr')),
      applyReloc_read_other b base bytes r i (h r (List.mem_cons_self r rest))]

lemma applyAll_read (b : ResolvedBindings) (base : Nat) :
    ∀ (rs : List RelocationEntry) (bytes : List Nat) (r : RelocationEntry),
      r ∈ rs →
      (∀ r' ∈ rs, r'.offset + 4 ≤ bytes.length ∧ (computeValue b base r').isSome = true) →
      rs.Pairwise (fun r₁ r₂ => r₁.offset + 4 ≤ r₂.offset ∨ r₂.offset + 4 ≤ r₁.offset) →
      ∃ v X, computeValue b base r = some v ∧
        readWord32 (applyAll b base rs bytes) r.offset =
          insertField (shiftOf r.kind) (widthOf r.kind) X (encodeField r.kind v) %
            4294967296 := by
  intro rs
  induction rs with
  | nil => intro bytes r hr; simp at hr
  | cons r₁ rest ih =>
    intro bytes r hr hwf hpw
    obtain ⟨hoff₁, hsome₁⟩ := hwf r₁ (List.mem_cons_self r₁ rest)
    obtain ⟨v₁, hv₁⟩ := Option.isSome_iff_exists.mp hsome₁
    have happ : applyAll b base (r₁ :: rest) bytes =
        applyAll b base rest (applyReloc b base bytes r₁) := rfl
    rcases List.mem_cons.mp hr with rfl | hmem
    · refine ⟨v₁, readWord32 bytes r.offset, hv₁, ?_⟩
      rw [happ]
      have hdisj : ∀ r' ∈ rest, r'.offset + 4 ≤ r.offset ∨ r.offset + 4 ≤ r'.offset := by
        intro r' hr'
        have hp := (List.pairwise_cons.mp hpw).1 r' hr'
        omega
      rw [applyAll_read_other b base rest (applyReloc b base bytes r) r.offset hdisj]
      simp only [applyReloc, hv₁]
      exact readWord32_write_same bytes r.offset _ hoff₁
    · obtain ⟨v, X, hv, hread⟩ := ih (applyReloc b base bytes r₁) r hmem
        (fun r' hr' =>
          ⟨by
            rw [applyReloc_length]
            exact (hwf r' (List.mem_cons_of_mem r₁ hr')).1,
           (hwf r' (List.mem_cons_of_mem r₁ hr')).2⟩)
        (List.pairwise_cons.mp hpw).2
      refine ⟨v, X, hv, ?_⟩
      rw [happ]
      exact hread

lemma extract_insert_full (X f : Nat) (hf : f < 4294967296) :
    extractField 0 32 (insertField 0 32 X f % 4294967296) = f := by
  simp only [extractField, insertField]
  norm_num
  omega

lemma extract_insert_mid (X f : Nat) (hf : f < 1048576) :
    extractField 12 20 (insertField 12 20 X f % 4294967296) = f := by
  simp only [extractField, insertField]
  norm_num
  omega

lemma extract_insert_top (X f : Nat) (hf : f < 4096) :
    extractField 20 12 (insertField 20 12 X f % 4294967296) = f := by
  simp only [extractField, insertField]
  norm_num
  omega

lemma decode_insert (k : RelocKind) (X : Nat) (v : Int) (hfit : fitsKind k v = true) :
    decodeOperand k
      (insertField (shiftOf k) (widthOf k) X (encodeField k v) % 4294967296) =
    expectedOperand k v := by
  cases k with
  | abs32 =>
    simp only [fitsKind, Bool.and_eq_true, decide_eq_true_eq] at hfit
    simp only [decodeOperand, expectedOperand, encodeField, shiftOf, widthOf]
    rw [extract_insert_full X (v.toNat % 4294967296) (by omega)]
    omega
  | pcrel20 =>
    simp only [fitsKind, Bool.and_eq_true, decide_eq_true_eq] at hfit
    simp only [decodeOperand, expectedOperand, encodeField, shiftOf, widthOf]
    rw [extract_insert_mid X (v % 1048576).toNat (by omega)]
    simp only [signExt]
    norm_num
    split <;> omega
  | hi20 =>
    simp only [fitsKind, Bool.and_eq_true, decide_eq_true_eq] at hfit
    simp only [decodeOperand, expectedOperand, encodeField, shiftOf, widthOf]
    rw [extract_insert_mid X (v.toNat / 4096 % 1048576) (by omega)]
  | lo12 =>
    simp only [fitsKind, Bool.and_eq_true, decide_eq_true_eq] at hfit
    simp only [decodeOperand, expectedOperand, encodeField, shiftOf, widthOf]
    rw [extract_insert_top X (v.toNat % 4096) (by omega)]

end P4Jit

namespace P4Jit

/-- C4: round trip — for every successfully linked module, independently
re-decoding each relocation-affected instruction word from the module's
patched bytes yields an operand equal to
`resolved_address(target_symbol) + addend` (taken as a PC-relative
displacement for the PC-relative kind), after applying the mask/shift
prescribed by that relocation's kind.  The relocations' 4-byte instruction
windows are pairwise disjoint, as each fixup targets its own instruction. -/
theorem link_round_trip (obj : JitObject) (fw : FirmwareSymbolTable) (base : Nat)
    (entry : String) (b : ResolvedBindings) (m : LinkedModule)
    (hres : resolve obj fw base = Except.ok b)
    (hok : (link obj fw base entry).result = Except.ok m)
    (hdisj : obj.relocations.Pairwise
      (fun r₁ r₂ => r₁.offset + 4 ≤ r₂.offset ∨ r₂.offset + 4 ≤ r₁.offset))
    (r : RelocationEntry) (hr : r ∈ obj.relocations) (v : Int)
    (hv : computeValue b base r = some v) :
    decodeOperand r.kind (readWord32 m.code_region r.offset) =
      expectedOperand r.kind v := by
  cases hpatch : patch obj b base with
  | error e =>
    simp only [link, hres, hpatch] at hok
    exact Except.noConfusion hok
  | ok img =>
    cases hsel : selectEntry obj.locals entry base with
    | error e =>
      simp only [link, hres, hpatch, hsel] at hok
      exact Except.noConfusion hok
    | ok ep =>
      simp only [link, hres, hpatch, hsel] at hok
      have hm := Except.ok.inj hok
      have hcode : m.code_region = img := by rw [← hm]
      obtain ⟨hvalok, happ⟩ :
          validateAll b base (objImage obj).length obj.relocations = Except.ok () ∧
          applyAll b base obj.relocations (objImage obj) = img := by
        have h2 := hpatch
        unfold patch at h2
        cases hv2 : validateAll b base (objImage obj).length obj.relocations with
        | error e => rw [hv2] at h2; simp at h2
        | ok u =>
          cases u
          rw [hv2] at h2
          simp at h2
          exact ⟨rfl, h2⟩
      have hwf : ∀ r' ∈ obj.relocations, r'.offset + 4 ≤ (objImage obj).length ∧
          (computeValue b base r').isSome = true := by
        intro r' hr'
        obtain ⟨h1, v', hv', _⟩ := validateAll_ok b base (objImage obj).length
          obj.relocations hvalok r' hr'
        exact ⟨h1, by simp [hv']⟩
      obtain ⟨v', X, hv', hread⟩ := applyAll_read b base obj.relocations (objImage obj)
        r hr hwf hdisj
      obtain ⟨_, v'', hv'', hfit⟩ := validateAll_ok b base (objImage obj).length
        obj.relocations hvalok r hr
      rw [hv] at hv' hv''
      have hv1 : v' = v := (Option.some.inj hv').symm
      have hv2 : v'' = v := (Option.some.inj hv'').symm
      rw [hv1] at hread
      rw [hv2] at hfit
      rw [hcode, ← happ, hread]
      exact decode_insert r.kind X v hfit

/-- Witness for C4: in the linked `demoObj` module, re-decoding the absolute
relocation word at offset 0 recovers `malloc`'s resolved address. -/
theorem link_round_trip_witness :
    decodeOperand RelocKind.abs32 (readWord32 demoModule.code_region 0) =
      expectedOperand RelocKind.abs32 65536 :=
  link_round_trip demoObj fwExample 1073741824 "process" demoBindings demoModule
    (by decide) (by decide) (by decide)
    (RelocationEntry.mk 0 "malloc" RelocKind.abs32 0) (by decide) 65536 (by decide)

end P4Jit
